import Mathlib

/-!
Verification of the IVT traffic-analysis pipeline (`ivt_analysis.py`).

The pipeline is a linear batch transform over a tabular time series of
ad-traffic metrics: preprocess (parse a timestamp, coerce metric columns to
numeric), group rows by application, sort each group by timestamp, compute a
rolling z-score spike flag per candidate metric, OR those flags with a
deterministic zero-impressions rule into one suspicious flag per row, compute
correlations against a ground-truth IVT column when present, and assemble a
report entry per group.

The embedding below follows the Python source function by function.  Numeric
cells are modelled as `Option ℚ` (`none` models a pandas `NaN`), the parsed
timestamp as `Option Int` (`none` models `NaT`), and a raised Python exception
as `Except.error`.
-/

namespace IVT

/-- Trailing rolling window of `series.rolling(window=w, min_periods=1)` at
row `i`: the last `min w (i+1)` values of the series up to and including
row `i`. -/
def windowVals (xs : List ℚ) (w i : Nat) : List ℚ :=
  (xs.take (i + 1)).drop (i + 1 - w)

/-- Rolling mean at row `i`, as computed by
`series.rolling(window=w, min_periods=1).mean()`. -/
def rollMean (xs : List ℚ) (w i : Nat) : ℚ :=
  (windowVals xs w i).sum / ((windowVals xs w i).length : ℚ)

/-- Rolling sample variance (the square of the rolling standard deviation) at
row `i`, as computed by `series.rolling(window=w, min_periods=1).std()`
followed by `.replace(0, np.nan)`.  `none` models `NaN`: a window of fewer
than two observations (sample standard deviation with `ddof=1` is undefined
there) or an exactly-zero standard deviation (the `replace(0, nan)` step,
and `std = 0` iff the variance is `0`). -/
def rollVar (xs : List ℚ) (w i : Nat) : Option ℚ :=
  if (windowVals xs w i).length < 2 then none
  else if ((windowVals xs w i).map (fun x => (x - rollMean xs w i) ^ 2)).sum
      / (((windowVals xs w i).length - 1 : Nat) : ℚ) = 0 then none
  else some (((windowVals xs w i).map (fun x => (x - rollMean xs w i) ^ 2)).sum
      / (((windowVals xs w i).length - 1 : Nat) : ℚ))

/-- Spike flag at row `i`: `|z| > t` where `z = (x - mean) / std` and
`std = sqrt (rollVar)`.  An undefined z-score (`rollVar = none`, i.e. a `NaN`
standard deviation) never triggers the flag, matching
`(z.abs() > z_thresh).fillna(False)`.  Since `std > 0` here, for `0 ≤ t` the
comparison `|z| > t` is equivalent to `t^2 * var < (x - mean)^2`, and for
`t < 0` it always holds; this avoids an irrational square root while agreeing
with the source comparison exactly. -/
def spikeFlag (xs : List ℚ) (w : Nat) (t : ℚ) (i : Nat) : Bool :=
  match rollVar xs w i with
  | none => false
  | some v => if t < 0 then true else decide (t ^ 2 * v < (xs.getD i 0 - rollMean xs w i) ^ 2)

/-- The boolean flag series returned by `detect_spikes(series, window, z_thresh)`
(the z-score series itself is returned by the source but never used by the
aggregation). -/
def detect_spikes (xs : List ℚ) (w : Nat) (t : ℚ) : List Bool :=
  (List.range xs.length).map (spikeFlag xs w t)

theorem windowVals_mem {xs : List ℚ} {w i : Nat} {x : ℚ}
    (hx : x ∈ windowVals xs w i) : x ∈ xs :=
  List.mem_of_mem_take (List.mem_of_mem_drop hx)

theorem detect_spikes_length (xs : List ℚ) (w : Nat) (t : ℚ) :
    (detect_spikes xs w t).length = xs.length := by
  simp [detect_spikes]

/-- C2: for a series all of whose values equal one constant, `detect_spikes`
returns a flag series that is false at every row, for every window and every
threshold: the rolling standard deviation of a constant window is exactly 0,
so the z-score is undefined and the flag never triggers. -/
theorem detect_spikes_const (xs : List ℚ) (c : ℚ) (w : Nat) (t : ℚ)
    (hc : ∀ x ∈ xs, x = c) :
    ∀ b ∈ detect_spikes xs w t, b = false := by
  intro b hb
  rw [detect_spikes, List.mem_map] at hb
  obtain ⟨i, _, rfl⟩ := hb
  have hv : ∀ x ∈ windowVals xs w i, x = c := fun x hx => hc x (windowVals_mem hx)
  have hvar : rollVar xs w i = none := by
    unfold rollVar
    by_cases hlen : (windowVals xs w i).length < 2
    · simp [hlen]
    · have hlen2 : 2 ≤ (windowVals xs w i).length := Nat.le_of_not_lt hlen
      have hne : ((windowVals xs w i).length : ℚ) ≠ 0 := by
        exact_mod_cast Nat.pos_iff_ne_zero.mp (Nat.lt_of_lt_of_le Nat.zero_lt_two hlen2)
      have hmean : rollMean xs w i = c := by
        have hrep := List.eq_replicate_of_mem hv
        rw [rollMean, hrep]
        rw [List.sum_replicate, List.length_replicate, nsmul_eq_mul]
        field_simp
      have hzero : ((windowVals xs w i).map (fun x => (x - rollMean xs w i) ^ 2)).sum = 0 := by
        apply List.sum_eq_zero
        intro y hy
        obtain ⟨x, hx, rfl⟩ := List.mem_map.mp hy
        rw [hv x hx, hmean]
        ring
      simp [hlen, hzero]
  simp [spikeFlag, hvar]

/-- Witness for C2 at the constant series `[2, 2, 2]` with the default window
24 and threshold 3. -/
theorem detect_spikes_const_witness :
    (∀ x ∈ ([2, 2, 2] : List ℚ), x = 2) ∧
      ∀ b ∈ detect_spikes [2, 2, 2] 24 3, b = false :=
  ⟨by decide, detect_spikes_const [2, 2, 2] 2 24 3 (by decide)⟩

/-- C10: for every non-empty input series, every window and every threshold,
the flag at the first row is false: the trailing window there holds a single
observation, the sample standard deviation (ddof = 1) is undefined on it, so
the z-score is `NaN` and the flag defaults to false. -/
theorem detect_spikes_first (xs : List ℚ) (w : Nat) (t : ℚ) (hxs : xs ≠ []) :
    (detect_spikes xs w t).head? = some false := by
  obtain ⟨a, l, rfl⟩ := List.exists_cons_of_ne_nil hxs
  have hlen : (windowVals (a :: l) w 0 ).length < 2 := by
    rw [windowVals, List.length_drop, List.length_take]
    omega
  have h0 : spikeFlag (a :: l) w t 0 = false := by
    rw [spikeFlag, rollVar, if_pos hlen]
  have : (a :: l).length = l.length + 1 := rfl
  rw [detect_spikes, this, List.range_succ_eq_map, List.map_cons, List.head?_cons, h0]

/-- Witness for C10 at the one-element series `[5]` with the default window 24
and threshold 3. -/
theorem detect_spikes_first_witness :
    ([5] : List ℚ) ≠ [] ∧ (detect_spikes [5] 24 3).head? = some false :=
  ⟨by decide, detect_spikes_first [5] 24 3 (by decide)⟩

/-- One row of the preprocessed table: the value in the application column
(`none` models a `NaN` cell, or no application column at all), the parsed
canonical `Date` timestamp (`none` models `NaT`), and the numeric metric
cells by column name (`none` models a `NaN` cell). -/
structure Row where
  app : Option String
  date : Option Int
  cells : List (String × Option ℚ)
deriving DecidableEq

/-- Cell of a row in a metric column; a name not stored behaves as `NaN`. -/
def Row.cell (r : Row) (c : String) : Option ℚ :=
  match r.cells.lookup c with
  | some v => v
  | none => none

/-- The preprocessed table (output of `preprocess`): whether an application
column (`app`, `app_name`, `application` or `bundle_id`) exists, which of the
recognized numeric metric columns exist, and the rows. -/
structure Frame where
  appCol : Bool
  cols : List String
  rows : List Row
deriving DecidableEq

/-- The column `c` of a list of rows as a series (`df_app[c]`). -/
def colSeries (rows : List Row) (c : String) : List (Option ℚ) :=
  rows.map (fun r => r.cell c)

/-- The fixed candidate metrics run through the Spike Detector
(`for metric in ['idfa_ua_ratio','requests_per_idfa','impressions_per_idfa','idfa_ip_ratio']`). -/
def spikeMetrics : List String :=
  ["idfa_ua_ratio", "requests_per_idfa", "impressions_per_idfa", "idfa_ip_ratio"]

/-- The `spikes` dictionary: for each candidate metric present in the table
(`if metric in df_app.columns`), the flag series of
`detect_spikes(df_app[metric].fillna(0))` with the default window 24 and
threshold 3. -/
def computeSpikes (f : Frame) (rows : List Row) (cands : List String) :
    List (String × List Bool) :=
  (cands.filter (fun m => decide (m ∈ f.cols))).map
    (fun m => (m, detect_spikes ((colSeries rows m).map (fun v => v.getD 0)) 24 3))

/-- Row-wise OR of two boolean series (`combined_spike | flag.values`). -/
def orRows (a b : List Bool) : List Bool :=
  List.zipWith (fun x y => x || y) a b

/-- `combined_spike`: starting from `np.zeros(n, dtype=bool)`, OR in each
per-metric flag series in turn. -/
def combinedSpike (spikes : List (String × List Bool)) (n : Nat) : List Bool :=
  spikes.foldl (fun acc p => orRows acc p.2) (List.replicate n false)

/-- The deterministic rule
`(df_app.get('impressions',0).fillna(0) == 0) & (df_app.get('total_requests',0).fillna(0) > 1000)`.
When either column is absent, `DataFrame.get` returns its scalar default `0`
(a Python `int`), and the chained `.fillna(0)` raises
`AttributeError: 'int' object has no attribute 'fillna'`; the `Except.error`
models that exception.  With both columns present, a `NaN` cell is filled
with 0 and the row flag is `impressions == 0 and total_requests > 1000`. -/
def ruleZeroImpr (f : Frame) (rows : List Row) : Except String (List Bool) :=
  if "impressions" ∈ f.cols then
    if "total_requests" ∈ f.cols then
      Except.ok (rows.map (fun r =>
        decide ((r.cell "impressions").getD 0 = 0) &&
        decide (1000 < (r.cell "total_requests").getD 0)))
    else Except.error "AttributeError: int object has no attribute fillna"
  else Except.error "AttributeError: int object has no attribute fillna"

/-- The per-row suspicious flag series of a group:
`suspicious = pd.Series(combined_spike) | rule_zero_impr.fillna(False)`
(the rule series is boolean, so its `.fillna(False)` is the identity); the
exception raised by the deterministic rule on a missing column propagates. -/
def suspiciousFlags (f : Frame) (rows : List Row) (cands : List String) :
    Except String (List Bool) :=
  match ruleZeroImpr f rows with
  | Except.error e => Except.error e
  | Except.ok rule =>
      Except.ok (orRows (combinedSpike (computeSpikes f rows cands) rows.length) rule)

/-- The sufficient statistics of the Pearson correlation computed by
`df_app[metric].corr(df_app['IVT'])`: the number of pairwise-complete
observations and the centered cross- and self-products over them.  The
coefficient itself is `cov / sqrt (varX * varY)` (pandas yields `NaN` when
fewer than two pairs are defined or a variance is zero); the statistics are
kept exactly in `ℚ` since the quotient is irrational in general. -/
structure PearsonStat where
  n : Nat
  cov : ℚ
  varX : ℚ
  varY : ℚ
deriving DecidableEq

/-- The pairwise-complete observations of two series: the index-aligned pairs
where both values are defined (pandas `Series.corr` drops a pair when either
side is `NaN`). -/
def pairedObs (xs ys : List (Option ℚ)) : List (ℚ × ℚ) :=
  (xs.zip ys).filterMap (fun p =>
    match p.1, p.2 with
    | some a, some b => some (a, b)
    | _, _ => none)

/-- Pearson statistics of `xs.corr(ys)` over the pairwise-complete
observations. -/
def pearson (xs ys : List (Option ℚ)) : PearsonStat :=
  { n := (pairedObs xs ys).length
    cov := ((pairedObs xs ys).map (fun p =>
        (p.1 - ((pairedObs xs ys).map Prod.fst).sum / ((pairedObs xs ys).length : ℚ)) *
        (p.2 - ((pairedObs xs ys).map Prod.snd).sum / ((pairedObs xs ys).length : ℚ)))).sum
    varX := ((pairedObs xs ys).map (fun p =>
        (p.1 - ((pairedObs xs ys).map Prod.fst).sum / ((pairedObs xs ys).length : ℚ)) ^ 2)).sum
    varY := ((pairedObs xs ys).map (fun p =>
        (p.2 - ((pairedObs xs ys).map Prod.snd).sum / ((pairedObs xs ys).length : ℚ)) ^ 2)).sum }

/-- The correlation mapping of a group: `corr = {}`, then only
`if 'IVT' in df_app.columns`, one entry per candidate metric present pairing
it with the correlation against the ground-truth `IVT` column. -/
def corrMap (f : Frame) (rows : List Row) : List (String × PearsonStat) :=
  if "IVT" ∈ f.cols then
    (spikeMetrics.filter (fun m => decide (m ∈ f.cols))).map
      (fun m => (m, pearson (colSeries rows m) (colSeries rows "IVT")))
  else []

/-- Ascending order on parsed timestamps with `NaT` placed last, as used by
`df_app.sort_values('Date')` (ascending, `na_position='last'`). -/
def dateLEb (a b : Option Int) : Bool :=
  match a, b with
  | _, none => true
  | none, some _ => false
  | some x, some y => decide (x ≤ y)

/-- The row order of `sort_values('Date')`: compare rows by parsed date. -/
def rowLE (r s : Row) : Prop := dateLEb r.date s.date = true

instance : DecidableRel rowLE := fun r s =>
  if h : dateLEb r.date s.date = true then Decidable.isTrue h else Decidable.isFalse h

theorem dateLEb_total (a b : Option Int) : dateLEb a b = true ∨ dateLEb b a = true := by
  rcases a with _ | x <;> rcases b with _ | y <;> simp [dateLEb]
  exact le_total x y

theorem dateLEb_trans {a b c : Option Int}
    (h1 : dateLEb a b = true) (h2 : dateLEb b c = true) : dateLEb a c = true := by
  rcases a with _ | x <;> rcases b with _ | y <;> rcases c with _ | z <;>
    simp [dateLEb] at *
  exact le_trans h1 h2

instance : IsTotal Row rowLE := ⟨fun r s => dateLEb_total r.date s.date⟩

instance : IsTrans Row rowLE := ⟨fun _ _ _ h1 h2 => dateLEb_trans h1 h2⟩

/-- `df_app.sort_values('Date').reset_index(drop=True)`: re-sort a group's
rows by the parsed timestamp, ascending, `NaT` last. -/
def sortGroup (g : List Row) : List Row :=
  List.insertionSort rowLE g

/-- Boolean-mask row selection `df_app.loc[suspicious]`: the rows whose flag
is true, in table order. -/
def maskFilter (rows : List Row) (flags : List Bool) : List Row :=
  ((rows.zip flags).filter (fun p => p.2)).map Prod.fst

/-- `int(suspicious.sum())`: the number of true flags. -/
def countTrue (l : List Bool) : Nat :=
  l.countP (fun b => b)

/-- One report entry (the `entry` dictionary): group label, row count,
suspicious count, `float(suspicious.mean())` (which is `NaN`, modelled
`none`, over an empty group), the correlation mapping, and the first 20
suspicious rows (`df_app.loc[suspicious].head(20)`).  The Python field
`suspicious_ratio` is named `suspiciousFrac` here. -/
structure ReportEntry where
  app : Option String
  nRows : Nat
  suspiciousCount : Nat
  suspiciousFrac : Option ℚ
  corr : List (String × PearsonStat)
  topSuspicious : List Row
deriving DecidableEq

/-- The per-group body of the `for app in apps` loop: sort the group by
timestamp, compute the suspicious flags (propagating the deterministic rule's
exception), and build the report entry. -/
def processGroup (f : Frame) (label : Option String) (g : List Row) :
    Except String ReportEntry :=
  match suspiciousFlags f (sortGroup g) spikeMetrics with
  | Except.error e => Except.error e
  | Except.ok susp =>
      Except.ok
        { app := label
          nRows := (sortGroup g).length
          suspiciousCount := countTrue susp
          suspiciousFrac :=
            if (sortGroup g).length = 0 then none
            else some ((countTrue susp : ℚ) / ((sortGroup g).length : ℚ))
          corr := corrMap f (sortGroup g)
          topSuspicious := (maskFilter (sortGroup g) susp).take 20 }

/-- One group-membership test `df[app_col] == app`: a pandas equality with a
`NaN` on either side is false, so a `NaN` label or a `NaN` cell never
matches. -/
def rowMatches (a : Option String) (r : Row) : Bool :=
  match a, r.app with
  | some x, some y => decide (x = y)
  | _, _ => false

/-- Helper for `pdUnique`: keep the values not yet seen, in order,
remembering the seen ones. -/
def pdUniqueAux (seen : List (Option String)) : List (Option String) → List (Option String)
  | [] => []
  | a :: l => if a ∈ seen then pdUniqueAux seen l else a :: pdUniqueAux (a :: seen) l

/-- `df[app_col].unique()`: the distinct values of the application column in
order of first occurrence (a `NaN` value is kept, once). -/
def pdUnique (l : List (Option String)) : List (Option String) :=
  pdUniqueAux [] l

/-- The group labels `apps` when an application column exists. -/
def appLabels (f : Frame) : List (Option String) :=
  pdUnique (f.rows.map Row.app)

/-- The rows of one application group, `df[df[app_col] == app]`. -/
def groupRows (f : Frame) (a : Option String) : List Row :=
  f.rows.filter (fun r => rowMatches a r)

/-- The labelled application groups: one per distinct application value when
an application column exists, else the single implicit group `'__ALL__'`
holding the whole table. -/
def appGroups (f : Frame) : List (Option String × List Row) :=
  if f.appCol then (appLabels f).map (fun a => (a, groupRows f a))
  else [(some "__ALL__", f.rows)]

/-- The analysis core of `run_analysis` on a preprocessed table: process each
application group in order; an exception raised in any group aborts the whole
run (the source has no per-group isolation). -/
def run_analysis (f : Frame) : Except String (List ReportEntry) :=
  (appGroups f).mapM (fun p => processGroup f p.1 p.2)

theorem orRows_length (a b : List Bool) : (orRows a b).length = min a.length b.length := by
  simp [orRows]

theorem orRows_getD (a b : List Bool) (h : a.length = b.length) (i : Nat) :
    (orRows a b).getD i false = (a.getD i false || b.getD i false) := by
  induction a generalizing b i with
  | nil =>
    cases b with
    | nil => simp [orRows]
    | cons y ys => simp at h
  | cons x xs ih =>
    cases b with
    | nil => simp at h
    | cons y ys =>
      cases i with
      | zero => simp [orRows]
      | succ j =>
        have hxy : (orRows (x :: xs) (y :: ys)).getD (j + 1) false
            = (orRows xs ys).getD j false := by
          simp [orRows]
        rw [hxy, ih ys (by simpa using h) j]
        simp

theorem foldl_orRows (spikes : List (String × List Bool)) (acc : List Bool) (n : Nat)
    (hacc : acc.length = n) (hsp : ∀ p ∈ spikes, p.2.length = n) :
    (spikes.foldl (fun a p => orRows a p.2) acc).length = n ∧
      ∀ i, (spikes.foldl (fun a p => orRows a p.2) acc).getD i false
        = (acc.getD i false || spikes.any (fun p => p.2.getD i false)) := by
  induction spikes generalizing acc with
  | nil => simp [hacc]
  | cons q qs ih =>
    have hq : q.2.length = n := hsp q (by simp)
    have h1 : (orRows acc q.2).length = n := by
      rw [orRows_length, hacc, hq, Nat.min_self]
    obtain ⟨ihl, ihg⟩ := ih (orRows acc q.2) h1 (fun p hp => hsp p (by simp [hp]))
    refine ⟨by simp only [List.foldl_cons]; exact ihl, fun i => ?_⟩
    rw [List.foldl_cons, ihg i, orRows_getD acc q.2 (by rw [hacc, hq]) i]
    simp [Bool.or_assoc]

theorem replicate_getD_false (n i : Nat) : (List.replicate n false).getD i false = false := by
  induction n generalizing i with
  | zero => simp
  | succ m ih =>
    cases i with
    | zero => simp [List.replicate]
    | succ j => simp [List.replicate]

theorem computeSpikes_length (f : Frame) (rows : List Row) (cands : List String) :
    ∀ p ∈ computeSpikes f rows cands, p.2.length = rows.length := by
  intro p hp
  rw [computeSpikes, List.mem_map] at hp
  obtain ⟨m, _, rfl⟩ := hp
  simp [detect_spikes_length, colSeries]

theorem combinedSpike_length (spikes : List (String × List Bool)) (n : Nat)
    (hsp : ∀ p ∈ spikes, p.2.length = n) : (combinedSpike spikes n).length = n :=
  (foldl_orRows spikes (List.replicate n false) n (by simp) hsp).1

theorem combinedSpike_getD (spikes : List (String × List Bool)) (n : Nat)
    (hsp : ∀ p ∈ spikes, p.2.length = n) (i : Nat) :
    (combinedSpike spikes n).getD i false = spikes.any (fun p => p.2.getD i false) := by
  rw [combinedSpike, (foldl_orRows spikes (List.replicate n false) n (by simp) hsp).2 i,
    replicate_getD_false]
  simp

theorem ruleZeroImpr_ok_length {f : Frame} {rows : List Row} {rule : List Bool}
    (h : ruleZeroImpr f rows = Except.ok rule) : rule.length = rows.length := by
  rw [ruleZeroImpr] at h
  split at h
  · split at h
    · cases h
      simp
    · cases h
  · cases h

/-- Pointwise reading of the suspicious flag series: at every index it is the
OR of the combined statistical flag and the deterministic rule flag. -/
theorem suspiciousFlags_getD (f : Frame) (rows : List Row) (cands : List String)
    (rule susp : List Bool)
    (hr : ruleZeroImpr f rows = Except.ok rule)
    (hs : suspiciousFlags f rows cands = Except.ok susp) (i : Nat) :
    susp.getD i false =
      ((computeSpikes f rows cands).any (fun p => p.2.getD i false)
        || rule.getD i false) := by
  rw [suspiciousFlags, hr] at hs
  cases hs
  rw [orRows_getD _ _ (by
    rw [combinedSpike_length _ _ (computeSpikes_length f rows cands),
      ruleZeroImpr_ok_length hr]) i]
  rw [combinedSpike_getD _ _ (computeSpikes_length f rows cands) i]

theorem mem_computeSpikes (f : Frame) (rows : List Row) (cands : List String)
    {m : String} (hm : m ∈ cands) (hmc : m ∈ f.cols) :
    (m, detect_spikes ((colSeries rows m).map (fun v => v.getD 0)) 24 3)
      ∈ computeSpikes f rows cands := by
  rw [computeSpikes]
  exact List.mem_map_of_mem _ (List.mem_filter.mpr ⟨hm, by simpa using hmc⟩)

/-- Shared characterization: a row's suspicious flag is true exactly when
some candidate metric present in the table spikes there, or the
deterministic rule fires there. -/
theorem suspiciousFlags_iff (f : Frame) (rows : List Row) (cands : List String)
    (rule susp : List Bool)
    (hr : ruleZeroImpr f rows = Except.ok rule)
    (hs : suspiciousFlags f rows cands = Except.ok susp) (i : Nat) :
    susp.getD i false = true ↔
      ((∃ m ∈ cands, m ∈ f.cols ∧
          (detect_spikes ((colSeries rows m).map (fun v => v.getD 0)) 24 3).getD i false = true)
        ∨ rule.getD i false = true) := by
  rw [suspiciousFlags_getD f rows cands rule susp hr hs i, Bool.or_eq_true,
    List.any_eq_true]
  constructor
  · rintro (⟨p, hp, hpi⟩ | h)
    · rw [computeSpikes, List.mem_map] at hp
      obtain ⟨m, hm, rfl⟩ := hp
      rw [List.mem_filter] at hm
      exact Or.inl ⟨m, hm.1, by simpa using hm.2, hpi⟩
    · exact Or.inr h
  · rintro (⟨m, hm, hmc, hflag⟩ | h)
    · exact Or.inl ⟨_, mem_computeSpikes f rows cands hm hmc, hflag⟩
    · exact Or.inr h

/-- C4: for every row of every group, the final suspicious flag is true iff
at least one contributing signal is true — it is the OR of the spike flags of
the candidate metrics present in the table and the deterministic
zero-impressions rule, with no signal overridden or negated. -/
theorem suspicious_iff_some_signal (f : Frame) (rows : List Row) (cands : List String)
    (rule susp : List Bool)
    (hr : ruleZeroImpr f rows = Except.ok rule)
    (hs : suspiciousFlags f rows cands = Except.ok susp) (i : Nat) :
    susp.getD i false = true ↔
      ((∃ m ∈ cands, m ∈ f.cols ∧
          (detect_spikes ((colSeries rows m).map (fun v => v.getD 0)) 24 3).getD i false = true)
        ∨ rule.getD i false = true) :=
  suspiciousFlags_iff f rows cands rule susp hr hs i

/-- C5: suspicion aggregation is monotonic in the candidate metric set — for
candidate sets `S ⊆ T`, every row flagged under `S` is also flagged under
`T`. -/
theorem suspicious_monotone (f : Frame) (rows : List Row) (S T : List String)
    (suspS suspT : List Bool) (hsub : S ⊆ T)
    (hS : suspiciousFlags f rows S = Except.ok suspS)
    (hT : suspiciousFlags f rows T = Except.ok suspT)
    (i : Nat) (h : suspS.getD i false = true) : suspT.getD i false = true := by
  cases hrule : ruleZeroImpr f rows with
  | error e => rw [suspiciousFlags, hrule] at hS; cases hS
  | ok rule =>
    rw [suspiciousFlags_iff f rows S rule suspS hrule hS i] at h
    rw [suspiciousFlags_iff f rows T rule suspT hrule hT i]
    rcases h with ⟨m, hm, rest⟩ | h
    · exact Or.inl ⟨m, hsub hm, rest⟩
    · exact Or.inr h

/-- C3: a row whose impressions value (missing cell treated as 0) is exactly
0 and whose total-requests value (missing cell treated as 0) exceeds 1000 has
its final suspicious flag true, regardless of all other metrics and of every
spike flag (the candidate set is arbitrary here). -/
theorem zero_impressions_flags_row (f : Frame) (rows : List Row) (cands : List String)
    (susp : List Bool) (i : Nat) (r : Row)
    (himp : "impressions" ∈ f.cols) (htr : "total_requests" ∈ f.cols)
    (hrow : rows[i]? = some r)
    (h0 : (r.cell "impressions").getD 0 = 0)
    (h1000 : 1000 < (r.cell "total_requests").getD 0)
    (hs : suspiciousFlags f rows cands = Except.ok susp) :
    susp.getD i false = true := by
  have hrule : ruleZeroImpr f rows = Except.ok (rows.map (fun s =>
      decide ((s.cell "impressions").getD 0 = 0) &&
      decide (1000 < (s.cell "total_requests").getD 0))) := by
    rw [ruleZeroImpr, if_pos himp, if_pos htr]
  rw [suspiciousFlags_getD f rows cands _ susp hrule hs i]
  have hmap : (rows.map (fun s =>
      decide ((s.cell "impressions").getD 0 = 0) &&
      decide (1000 < (s.cell "total_requests").getD 0))).getD i false = true := by
    rw [List.getD_eq_getElem?_getD, List.getElem?_map, hrow]
    simp [h0, h1000]
  rw [hmap]
  simp

/-- A one-row, no-application-column table with impressions 0 and
total requests 2000, used for concrete witnesses. -/
def wRow : Row :=
  { app := none, date := some 0,
    cells := [("impressions", some 0), ("total_requests", some 2000)] }

def wFrame : Frame :=
  { appCol := false, cols := ["impressions", "total_requests"], rows := [wRow] }

/-- Witness for C4 on `wFrame`: its one row has suspicious flag `[true]`,
rule flag `[true]`, and no candidate metric present. -/
theorem suspicious_iff_some_signal_witness :
    ([true] : List Bool).getD 0 false = true ↔
      ((∃ m ∈ spikeMetrics, m ∈ wFrame.cols ∧
          (detect_spikes ((colSeries [wRow] m).map (fun v => v.getD 0)) 24 3).getD 0 false = true)
        ∨ ([true] : List Bool).getD 0 false = true) :=
  suspicious_iff_some_signal wFrame [wRow] spikeMetrics [true] [true] rfl rfl 0

/-- Witness for C5 on `wFrame` with the empty candidate set against the full
one. -/
theorem suspicious_monotone_witness : ([true] : List Bool).getD 0 false = true :=
  suspicious_monotone wFrame [wRow] [] spikeMetrics [true] [true]
    (List.nil_subset _) rfl rfl 0 rfl

/-- Witness for C3 on `wFrame`: the single row has impressions 0 and
total requests 2000 > 1000, and its suspicious flag is true. -/
theorem zero_impressions_flags_row_witness : ([true] : List Bool).getD 0 false = true :=
  zero_impressions_flags_row wFrame [wRow] spikeMetrics [true] 0 wRow
    (by decide) (by decide) rfl (by decide) (by decide) rfl

/-- C6: a group without the ground-truth `IVT` column gets an empty
correlation mapping — no error is raised (`corrMap` is total) and no default
entry is substituted; when `IVT` is present the mapping has exactly one entry
per candidate metric present, in candidate order. -/
theorem corrMap_empty_or_total (f : Frame) (rows : List Row) :
    ("IVT" ∉ f.cols → corrMap f rows = []) ∧
      ("IVT" ∈ f.cols →
        (corrMap f rows).map Prod.fst = spikeMetrics.filter (fun m => decide (m ∈ f.cols))) := by
  constructor
  · intro h
    rw [corrMap, if_neg h]
  · intro h
    rw [corrMap, if_pos h, List.map_map]
    exact List.map_id _

/-- A table with the `IVT` column and one candidate metric present, used as a
concrete witness input. -/
def w6Frame : Frame :=
  { appCol := false, cols := ["idfa_ua_ratio", "IVT"], rows := [] }

/-- Witness for C6: `wFrame` lacks `IVT` and gets the empty mapping;
`w6Frame` has `IVT` and gets one entry per present candidate metric. -/
theorem corrMap_empty_or_total_witness :
    corrMap wFrame [] = [] ∧
      (corrMap w6Frame []).map Prod.fst
        = spikeMetrics.filter (fun m => decide (m ∈ w6Frame.cols)) :=
  ⟨(corrMap_empty_or_total wFrame []).1 (by decide),
   (corrMap_empty_or_total w6Frame []).2 (by decide)⟩

/-- C7: each application group is re-sorted by the parsed timestamp in
ascending order (undefined timestamps last) before any windowed computation:
`sortGroup` — which `processGroup` applies to the group before computing any
spike flag — emits a permutation of the group's rows that is sorted by the
timestamp order `rowLE`, so pre-shuffled input rows are processed in
ascending-timestamp order. -/
theorem sortGroup_sorted_perm (g : List Row) :
    List.Sorted rowLE (sortGroup g) ∧ (sortGroup g).Perm g :=
  ⟨List.sorted_insertionSort rowLE g, List.perm_insertionSort rowLE g⟩

theorem suspiciousFlags_ok_length {f : Frame} {rows : List Row} {cands : List String}
    {susp : List Bool} (h : suspiciousFlags f rows cands = Except.ok susp) :
    susp.length = rows.length := by
  rw [suspiciousFlags] at h
  cases hr : ruleZeroImpr f rows with
  | error e => rw [hr] at h; cases h
  | ok rule =>
    rw [hr] at h
    cases h
    rw [orRows_length, combinedSpike_length _ _ (computeSpikes_length f rows cands),
      ruleZeroImpr_ok_length hr, Nat.min_self]

theorem maskFilter_sublist (rows : List Row) (flags : List Bool) :
    List.Sublist (maskFilter rows flags) rows := by
  induction rows generalizing flags with
  | nil => simp [maskFilter]
  | cons r rs ih =>
    cases flags with
    | nil => simp [maskFilter]
    | cons b bs =>
      cases b with
      | false =>
        have h2 : maskFilter (r :: rs) (false :: bs) = maskFilter rs bs := by
          simp [maskFilter]
        rw [h2]
        exact (ih bs).cons r
      | true =>
        have h2 : maskFilter (r :: rs) (true :: bs) = r :: maskFilter rs bs := by
          simp [maskFilter]
        rw [h2]
        exact (ih bs).cons₂ r

theorem maskFilter_length (rows : List Row) (flags : List Bool)
    (h : flags.length = rows.length) :
    (maskFilter rows flags).length = countTrue flags := by
  induction rows generalizing flags with
  | nil =>
    cases flags with
    | nil => simp [maskFilter, countTrue]
    | cons b bs => simp at h
  | cons r rs ih =>
    cases flags with
    | nil => simp [maskFilter, countTrue]
    | cons b bs =>
      have hlen : bs.length = rs.length := by simpa using h
      cases b with
      | false =>
        have h2 : maskFilter (r :: rs) (false :: bs) = maskFilter rs bs := by
          simp [maskFilter]
        rw [h2, ih bs hlen]
        simp [countTrue]
      | true =>
        have h2 : maskFilter (r :: rs) (true :: bs) = r :: maskFilter rs bs := by
          simp [maskFilter]
        rw [h2]
        simp only [List.length_cons, ih bs hlen, countTrue, List.countP_cons]
        simp

/-- C9: a report entry's sample of suspicious rows is exactly the first
`min 20 suspiciousCount` suspicious rows, verbatim and in table order (the
selected rows are an order-preserving sublist of the sorted group, the
selection has as many rows as the suspicious count, and the sample is its
20-capped prefix). -/
theorem topSuspicious_first_twenty (f : Frame) (label : Option String) (g : List Row)
    (susp : List Bool) (e : ReportEntry)
    (hs : suspiciousFlags f (sortGroup g) spikeMetrics = Except.ok susp)
    (he : processGroup f label g = Except.ok e) :
    e.topSuspicious = (maskFilter (sortGroup g) susp).take 20 ∧
      List.Sublist (maskFilter (sortGroup g) susp) (sortGroup g) ∧
      (maskFilter (sortGroup g) susp).length = e.suspiciousCount ∧
      e.topSuspicious.length = min 20 e.suspiciousCount := by
  rw [processGroup, hs] at he
  cases he
  have hlen : (maskFilter (sortGroup g) susp).length = countTrue susp :=
    maskFilter_length (sortGroup g) susp (suspiciousFlags_ok_length hs)
  exact ⟨rfl, maskFilter_sublist _ _, hlen, by rw [List.length_take, hlen]⟩

/-- The report entry produced from `wFrame` and its single row (the fraction
is kept in its unreduced `1 / 1` cast form so that the record is literally
the one `processGroup` builds). -/
def wEntry : ReportEntry :=
  { app := none, nRows := 1, suspiciousCount := 1,
    suspiciousFrac := some (((1 : Nat) : ℚ) / ((1 : Nat) : ℚ)),
    corr := [], topSuspicious := [wRow] }

/-- Witness for C9 on `wFrame`: the single-row group is suspicious, and the
sample is exactly that one row. -/
theorem topSuspicious_first_twenty_witness :
    wEntry.topSuspicious = (maskFilter (sortGroup [wRow]) [true]).take 20 ∧
      List.Sublist (maskFilter (sortGroup [wRow]) [true]) (sortGroup [wRow]) ∧
      (maskFilter (sortGroup [wRow]) [true]).length = wEntry.suspiciousCount ∧
      wEntry.topSuspicious.length = min 20 wEntry.suspiciousCount :=
  topSuspicious_first_twenty wFrame none [wRow] [true] wEntry rfl rfl

theorem pdUniqueAux_mem (x : Option String) (l seen : List (Option String)) :
    x ∈ pdUniqueAux seen l ↔ (x ∈ l ∧ x ∉ seen) := by
  induction l generalizing seen with
  | nil => simp [pdUniqueAux]
  | cons a l ih =>
    by_cases ha : a ∈ seen
    · rw [pdUniqueAux, if_pos ha, ih]
      constructor
      · rintro ⟨hl, hs⟩
        exact ⟨List.mem_cons_of_mem a hl, hs⟩
      · rintro ⟨hx, hs⟩
        rcases List.mem_cons.mp hx with rfl | hmem
        · exact absurd ha hs
        · exact ⟨hmem, hs⟩
    · rw [pdUniqueAux, if_neg ha, List.mem_cons, ih]
      constructor
      · rintro (rfl | ⟨hl, hnas⟩)
        · exact ⟨List.mem_cons_self x l, ha⟩
        · rw [List.mem_cons] at hnas
          push_neg at hnas
          exact ⟨List.mem_cons_of_mem a hl, hnas.2⟩
      · rintro ⟨hx, hs⟩
        rcases List.mem_cons.mp hx with rfl | hmem
        · exact Or.inl rfl
        · by_cases hxa : x = a
          · exact Or.inl hxa
          · refine Or.inr ⟨hmem, ?_⟩
            rw [List.mem_cons]
            push_neg
            exact ⟨hxa, hs⟩

theorem pdUniqueAux_nodup (l seen : List (Option String)) :
    (pdUniqueAux seen l).Nodup := by
  induction l generalizing seen with
  | nil => simp [pdUniqueAux]
  | cons a l ih =>
    by_cases ha : a ∈ seen
    · rw [pdUniqueAux, if_pos ha]
      exact ih seen
    · rw [pdUniqueAux, if_neg ha, List.nodup_cons]
      refine ⟨?_, ih (a :: seen)⟩
      rw [pdUniqueAux_mem]
      rintro ⟨_, hna⟩
      exact hna (List.mem_cons_self a seen)

theorem pdUnique_mem (x : Option String) (l : List (Option String)) :
    x ∈ pdUnique l ↔ x ∈ l := by
  rw [pdUnique, pdUniqueAux_mem]
  simp

theorem pdUnique_nodup (l : List (Option String)) : (pdUnique l).Nodup :=
  pdUniqueAux_nodup l []

theorem countP_eq_one_of_nodup_mem {α : Type} [DecidableEq α] (l : List α) (a : α)
    (hn : l.Nodup) (hm : a ∈ l) : l.countP (fun b => decide (b = a)) = 1 := by
  induction l with
  | nil => cases hm
  | cons x xs ih =>
    rw [List.countP_cons]
    rcases List.mem_cons.mp hm with rfl | hmem
    · have hnot : a ∉ xs := (List.nodup_cons.mp hn).1
      have hz : xs.countP (fun b => decide (b = a)) = 0 := by
        rw [List.countP_eq_zero]
        intro b hb
        simp only [decide_eq_true_eq]
        intro hba
        exact hnot (hba ▸ hb)
      rw [hz]
      simp
    · have hxa : ¬x = a := fun h => (List.nodup_cons.mp hn).1 (h ▸ hmem)
      rw [ih (List.nodup_cons.mp hn).2 hmem]
      simp [hxa]

theorem rowMatches_eq_some {r : Row} {y : String} (hy : r.app = some y)
    (a : Option String) : rowMatches a r = decide (a = some y) := by
  rcases a with _ | x
  · simp [rowMatches]
  · simp [rowMatches, hy]

theorem rowMatches_of_none {r : Row} (hy : r.app = none) (a : Option String) :
    rowMatches a r = false := by
  rcases a with _ | x <;> simp [rowMatches, hy]

theorem appGroups_countP_eq (f : Frame) (r : Row) (hr : r ∈ f.rows)
    (happ : f.appCol = true) :
    (appGroups f).countP (fun p => decide (r ∈ p.2))
      = (appLabels f).countP (fun a => rowMatches a r) := by
  rw [appGroups, if_pos (by rw [happ]), List.countP_map]
  apply List.countP_congr
  intro a _
  show decide (r ∈ groupRows f a) = true ↔ rowMatches a r = true
  by_cases hm : rowMatches a r = true
  · simp [groupRows, List.mem_filter, hr, hm]
  · simp [groupRows, List.mem_filter, hm]

/-- C8 (amended): when an application column exists, every row whose
application value is defined belongs to exactly one application group (the
one labelled with its value), while a row whose application value is missing
(`NaN`) belongs to no group at all; when no application column exists, the
whole table forms the single implicit group, which contains every row. -/
theorem appGroups_partition (f : Frame) (r : Row) (hr : r ∈ f.rows) :
    (f.appCol = true → ∀ y, r.app = some y →
        (appGroups f).countP (fun p => decide (r ∈ p.2)) = 1) ∧
      (f.appCol = true → r.app = none →
        (appGroups f).countP (fun p => decide (r ∈ p.2)) = 0) ∧
      (f.appCol = false →
        appGroups f = [(some "__ALL__", f.rows)] ∧
          (appGroups f).countP (fun p => decide (r ∈ p.2)) = 1) := by
  refine ⟨?_, ?_, ?_⟩
  · intro happ y hy
    rw [appGroups_countP_eq f r hr happ]
    rw [List.countP_congr (fun a _ => by rw [rowMatches_eq_some hy a])]
    apply countP_eq_one_of_nodup_mem _ _ (pdUnique_nodup _)
    show some y ∈ pdUnique (f.rows.map Row.app)
    rw [pdUnique_mem]
    have hmem : r.app ∈ f.rows.map Row.app := List.mem_map_of_mem Row.app hr
    rw [hy] at hmem
    exact hmem
  · intro happ hy
    rw [appGroups_countP_eq f r hr happ, List.countP_eq_zero]
    intro a _
    simp [rowMatches_of_none hy a]
  · intro happ
    have h1 : appGroups f = [(some "__ALL__", f.rows)] := by
      rw [appGroups, if_neg (by rw [happ]; exact Bool.false_ne_true)]
    refine ⟨h1, ?_⟩
    rw [h1]
    simp [List.countP_cons, hr]

/-- A group-labelled table containing one row with application value `A` and
one row whose application cell is missing (`NaN`). -/
def c8RowA : Row := { app := some "A", date := some 0, cells := [] }

def c8RowNaN : Row := { app := none, date := some 1, cells := [] }

def c8Frame : Frame := { appCol := true, cols := [], rows := [c8RowA, c8RowNaN] }

/-- Counterexample to C8 as stated: in `c8Frame` the application column
exists and `c8RowNaN` is a row of the table, yet it belongs to none of the
application groups (its missing application value matches no group label), so
the groups do not partition the rows. -/
theorem appGroups_partition_cex :
    c8RowNaN ∈ c8Frame.rows ∧ c8Frame.appCol = true ∧
      (appGroups c8Frame).countP (fun p => decide (c8RowNaN ∈ p.2)) = 0 := by
  refine ⟨by decide, rfl, ?_⟩
  rfl

/-- Witness for the amended C8 on `c8Frame`: the row labelled `A` lies in
exactly one group. -/
theorem appGroups_partition_witness :
    (appGroups c8Frame).countP (fun p => decide (c8RowA ∈ p.2)) = 1 :=
  (appGroups_partition c8Frame c8RowA (by decide)).1 rfl "A" rfl

/-- A table that merely lacks the `impressions` column (the candidate ratio
metric and `total_requests` are present, with ordinary values). -/
def c1Row : Row :=
  { app := none, date := some 0,
    cells := [("idfa_ua_ratio", some 1), ("total_requests", some 2000)] }

def c1Frame : Frame :=
  { appCol := false, cols := ["idfa_ua_ratio", "total_requests"], rows := [c1Row] }

/-- C1 (code bug): a missing `impressions` (or `total_requests`) column is an
error, not graceful degradation — on `c1Frame`, whose only absence is the
`impressions` column, the pipeline aborts with the `AttributeError` raised by
`df_app.get('impressions', 0).fillna(0)` (the scalar default `0` has no
`fillna`), instead of completing with the missing metric treated as 0. -/
theorem run_analysis_missing_impressions_errors :
    run_analysis c1Frame
      = Except.error "AttributeError: int object has no attribute fillna" := rfl

end IVT
